import Mathlib

/-!
# Verification of the flightpi event coalescer (`src/flight_logger.py`)
and the read-side detail query (`src/web_server.py`).

Shallow embedding notes.

* Timestamps.  The source stores timestamps as ISO-8601 strings produced by
  `datetime.isoformat(timespec="seconds")` ("YYYY-MM-DDTHH:MM:SS") and
  compares them with SQLite's BINARY text comparison, which on strings of
  this fixed format agrees with chronological order.  The core model below
  therefore represents a (well-formed) timestamp by its value in seconds
  (an `Int`); `EVENT_WINDOW_MINUTES = 20` becomes `1200` seconds.
  A second, string-level front end (`logFlightRaw`) models the raw
  `seen_at` handling, including `datetime.fromisoformat`'s failure on an
  unparseable string; its parser accepts exactly the canonical
  "YYYY-MM-DDTHH:MM:SS" format that the system itself produces.

* SQL `NULL` / Python `None` are `Option.none`; REAL-valued telemetry
  columns are only ever copied verbatim (never computed with), so their
  payload is modelled as `Int`.

* The `flights` table is a `List Event`; list position is `id` order
  (SQLite's AUTOINCREMENT id grows with insertion order and rows are never
  deleted), so `ORDER BY id DESC LIMIT 1` is `List.getLast?` of the
  filtered rows and `UPDATE ... WHERE id = ?` is `List.set` at an index.

* Python string helpers (`str.strip`, `str.replace("|","")`, `str.upper`)
  are re-implemented on `List Char` (`pyStrip`, `stripPipes`, `pyUpper`)
  so that every definition evaluates by kernel reduction.
-/

namespace FlightPi

/-- Python whitespace recognised by `str.strip` (ASCII portion, which is all
the data sources emit). -/
def isPySpace (c : Char) : Bool :=
  c = ' ' || c = '\t' || c = '\n' || c = '\x0d' || c = '\x0b' || c = '\x0c'

/-- Python `str.strip()` : drop leading and trailing whitespace. -/
def pyStrip (s : String) : String :=
  String.mk (((s.toList.dropWhile isPySpace).reverse.dropWhile isPySpace).reverse)

/-- Python `s.replace("|", "")` : remove every `'|'` character. -/
def stripPipes (s : String) : String :=
  String.mk (s.toList.filter (fun c => c ≠ '|'))

/-- Python `str.upper()` (ASCII portion). -/
def pyUpper (s : String) : String :=
  String.mk (s.toList.map Char.toUpper)

/-- Python `value or ""` on an optional string column. -/
def orEmpty (o : Option String) : String := o.getD ""

/-- `EVENT_WINDOW_MINUTES = 20`, in seconds (the model's time unit). -/
def eventWindowSecs : Int := 20 * 60

/-- One raw sighting as passed to `log_flight` (the Python dict `row`);
`none` is an absent key / `None` value.  `seen_at` is already parsed
(see the module comment; `logFlightRaw` below models the unparsed layer). -/
structure Sighting where
  seen_at : Option Int
  hex : Option String
  reg : Option String
  callsign : Option String
  type_code : Option String
  model : Option String
  manufacturer : Option String
  country : Option String
  country_iso : Option String
  owner : Option String
  airline_name : Option String
  origin_iata : Option String
  origin_name : Option String
  dest_iata : Option String
  dest_name : Option String
  altitude_ft : Option Int
  ground_speed_kt : Option Int
  distance_nm : Option Int
  heading_deg : Option Int
  deriving Repr, DecidableEq

/-- One persisted row of the `flights` table (minus the implicit id, which
is the row's list position). -/
structure Event where
  seen_at : Int
  hex : Option String
  reg : Option String
  callsign : Option String
  type_code : Option String
  model : Option String
  manufacturer : Option String
  country : Option String
  country_iso : Option String
  owner : Option String
  airline_name : Option String
  origin_iata : Option String
  origin_name : Option String
  dest_iata : Option String
  dest_name : Option String
  altitude_ft : Option Int
  ground_speed_kt : Option Int
  distance_nm : Option Int
  heading_deg : Option Int
  event_key : String
  first_seen : Int
  last_seen : Int
  times_seen : Int
  deriving Repr, DecidableEq

/-- `_build_event_key`: `f"{hex_}|{reg}|{cs}"` with each part
`(row.get(k) or "").strip()`. -/
def buildEventKey (r : Sighting) : String :=
  pyStrip (orEmpty r.hex) ++ "|" ++ pyStrip (orEmpty r.reg) ++ "|" ++ pyStrip (orEmpty r.callsign)

/-- The degenerate-key test `not event_key.replace("|", "")`. -/
def keyIsDegenerate (key : String) : Bool :=
  stripPipes key = ""

/-- SQL `COALESCE(NULLIF(col, ''), ?)` : keep the old value unless it is
NULL or the empty string, in which case take the new one. -/
def sticky (old new : Option String) : Option String :=
  match (if old = some "" then none else old) with
  | none => new
  | some v => some v

/-- The row built by `_insert_new_event` (all fields verbatim from the
sighting, `first_seen = last_seen = seen_at`, `times_seen = 1`). -/
def newEvent (r : Sighting) (seen : Int) (key : String) : Event :=
  { seen_at := seen
    hex := r.hex
    reg := r.reg
    callsign := r.callsign
    type_code := r.type_code
    model := r.model
    manufacturer := r.manufacturer
    country := r.country
    country_iso := r.country_iso
    owner := r.owner
    airline_name := r.airline_name
    origin_iata := r.origin_iata
    origin_name := r.origin_name
    dest_iata := r.dest_iata
    dest_name := r.dest_name
    altitude_ft := r.altitude_ft
    ground_speed_kt := r.ground_speed_kt
    distance_nm := r.distance_nm
    heading_deg := r.heading_deg
    event_key := key
    first_seen := seen
    last_seen := seen
    times_seen := 1 }

/-- The UPDATE branch of `log_flight`: telemetry overwritten verbatim, the
ten COALESCE/NULLIF columns sticky-merged, `last_seen`/`seen_at` set to the
sighting time, `times_seen` incremented.  `hex`, `reg`, `callsign`,
`type_code`, `event_key` and `first_seen` are not in the SET list. -/
def applyUpdate (r : Sighting) (seen : Int) (e : Event) : Event :=
  { e with
    last_seen := seen
    seen_at := seen
    times_seen := e.times_seen + 1
    altitude_ft := r.altitude_ft
    ground_speed_kt := r.ground_speed_kt
    distance_nm := r.distance_nm
    heading_deg := r.heading_deg
    model := sticky e.model r.model
    manufacturer := sticky e.manufacturer r.manufacturer
    country := sticky e.country r.country
    country_iso := sticky e.country_iso r.country_iso
    owner := sticky e.owner r.owner
    airline_name := sticky e.airline_name r.airline_name
    origin_iata := sticky e.origin_iata r.origin_iata
    origin_name := sticky e.origin_name r.origin_name
    dest_iata := sticky e.dest_iata r.dest_iata
    dest_name := sticky e.dest_name r.dest_name }

/-- Does a row satisfy the window-lookup WHERE clause
(`event_key = ? AND last_seen >= ?`)? -/
def eligible (key : String) (cutoff : Int) (e : Event) : Bool :=
  e.event_key = key && cutoff ≤ e.last_seen

/-- The window lookup
`SELECT id, ... WHERE event_key = ? AND last_seen >= ? ORDER BY last_seen
DESC LIMIT 1`: an eligible row of maximal `last_seen`, together with its
index (its id).  Ties on `last_seen` resolve to the earlier row. -/
def bestMatch (key : String) (cutoff : Int) : List Event → Option (Nat × Event)
  | [] => none
  | e :: rest =>
    if eligible key cutoff e then
      match bestMatch key cutoff rest with
      | none => some (0, e)
      | some (j, ej) => if ej.last_seen > e.last_seen then some (j + 1, ej) else some (0, e)
    else
      (bestMatch key cutoff rest).map (fun p => (p.1 + 1, p.2))

/-- `log_flight(row)` on a table state.  `now` is `datetime.now()`,
used only when the sighting has no (Python-falsy) `seen_at`. -/
def logFlight (r : Sighting) (now : Int) (tbl : List Event) : List Event :=
  let seen := r.seen_at.getD now
  let key := buildEventKey r
  if keyIsDegenerate key then
    tbl ++ [newEvent r seen key]
  else
    let cutoff := seen - eventWindowSecs
    match bestMatch key cutoff tbl with
    | some (i, e) => tbl.set i (applyUpdate r seen e)
    | none => tbl ++ [newEvent r seen key]

/-- A run of the poll loop: each element is one `log_flight` call with its
`datetime.now()` value. -/
def runLog (calls : List (Sighting × Int)) (tbl : List Event) : List Event :=
  calls.foldl (fun acc c => logFlight c.1 c.2 acc) tbl

/-- The observation time a call effectively uses: the sighting's `seen_at`,
defaulting to that call's `datetime.now()`. -/
def obsTime (c : Sighting × Int) : Int :=
  c.1.seen_at.getD c.2

/-- A row is "open" for `key` at query time `q`: it carries `key` and its
`last_seen` is within the coalescing window of `q`. -/
def openForKey (key : String) (q : Int) (e : Event) : Bool :=
  e.event_key = key && q - eventWindowSecs ≤ e.last_seen

/-- Number of open rows for `key` at query time `q`. -/
def openCount (key : String) (q : Int) (tbl : List Event) : Nat :=
  tbl.countP (openForKey key q)

/-- Spec-side description of SQL `COALESCE(NULLIF(old, ''), new)`:
a non-empty old value survives; an empty/NULL old value is replaced. -/
def stickyMerged (old new result : Option String) : Prop :=
  (old = none ∨ old = some "" → result = new) ∧
  (old ≠ none → old ≠ some "" → result = old)

/-! ### Read side: `get_flight_detail` (`src/web_server.py`) -/

/-- The dictionary `get_flight_detail` returns: the most recent row
(the SQL projects its 19 display columns; we keep the whole row) with the
aggregate values spliced over `total_seen` / `first_seen` / `last_seen`. -/
structure Detail where
  row : Event
  total_seen : Nat
  first_seen : Int
  last_seen : Int
  deriving Repr, DecidableEq

/-- The WHERE clause of `get_flight_detail`: an equality conjunct per
non-empty parameter (SQL `col = ?` is never satisfied by a NULL column). -/
def detailMatches (reg hex : String) (e : Event) : Bool :=
  (reg == "" || e.reg == some reg) && (hex == "" || e.hex == some hex)

/-- `get_flight_detail(reg, hex_code)`: normalise both parameters with
`.strip().upper()`; `None` if both are empty or no row matches; otherwise
`COUNT(*)`, `MIN(seen_at)`, `MAX(seen_at)` over the matching rows plus the
matching row with the greatest id (`ORDER BY id DESC LIMIT 1`). -/
def getFlightDetail (reg0 hex0 : String) (tbl : List Event) : Option Detail :=
  let reg := pyUpper (pyStrip reg0)
  let hex := pyUpper (pyStrip hex0)
  if reg = "" && hex = "" then none
  else
    let ms := tbl.filter (detailMatches reg hex)
    match ms.getLast? with
    | none => none
    | some lastRow =>
      match ms.map Event.seen_at with
      | [] => none
      | t :: ts =>
        some { row := lastRow
               total_seen := ms.length
               first_seen := ts.foldl min t
               last_seen := ts.foldl max t }

/-! ### Raw (string-level) front end of `log_flight`

The model above represents well-formed timestamps by their value in
seconds.  `log_flight` itself, however, receives `seen_at` as an optional
*string* and calls `datetime.fromisoformat` on it, which raises
`ValueError` on an unparseable string (there is no try/except around it).
The definitions below model that layer: timestamps stay strings, the
window lookup compares them with SQLite's BINARY (memcmp) collation, and
parsing is explicit and fallible.  `parseIso` accepts exactly the
canonical "YYYY-MM-DDTHH:MM:SS" format that the system itself writes
(`isoformat(timespec="seconds")`) — a proper subset of what
`datetime.fromisoformat` accepts; the strings used in the theorems below
are rejected or accepted by both. -/

/-- Leap year test (proleptic Gregorian, as `datetime` uses). -/
def isLeap (y : Int) : Bool :=
  (y % 4 = 0 && ¬ y % 100 = 0) || y % 400 = 0

/-- Days in a month. -/
def daysInMonth (y : Int) (m : Nat) : Nat :=
  match m with
  | 1 => 31 | 2 => if isLeap y then 29 else 28 | 3 => 31 | 4 => 30
  | 5 => 31 | 6 => 30 | 7 => 31 | 8 => 31 | 9 => 30 | 10 => 31
  | 11 => 30 | 12 => 31 | _ => 0

/-- Days since 1970-01-01 of a civil date (Hinnant's algorithm, with
Euclidean division). -/
def daysFromCivil (y : Int) (m d : Nat) : Int :=
  let yAdj := if m ≤ 2 then y - 1 else y
  let era := Int.ediv yAdj 400
  let yoe := yAdj - era * 400
  let mp := Int.emod (Int.ofNat m + 9) 12
  let doy := Int.ediv (153 * mp + 2) 5 + Int.ofNat d - 1
  let doe := yoe * 365 + Int.ediv yoe 4 - Int.ediv yoe 100 + doy
  era * 146097 + doe - 719468

/-- Civil date from days since 1970-01-01 (inverse of `daysFromCivil`). -/
def civilFromDays (z0 : Int) : Int × Nat × Nat :=
  let z := z0 + 719468
  let era := Int.ediv z 146097
  let doe := Int.emod z 146097
  let yoe := Int.ediv (doe - Int.ediv doe 1460 + Int.ediv doe 36524 - Int.ediv doe 146096) 365
  let y := yoe + era * 400
  let doy := doe - (365 * yoe + Int.ediv yoe 4 - Int.ediv yoe 100)
  let mp := Int.ediv (5 * doy + 2) 153
  let d := doy - Int.ediv (153 * mp + 2) 5 + 1
  let m := if mp < 10 then mp + 3 else mp - 9
  (if m ≤ 2 then y + 1 else y, m.toNat, d.toNat)

/-- Parse a canonical "YYYY-MM-DDTHH:MM:SS" timestamp to epoch seconds;
`none` on anything else (where `datetime.fromisoformat` raises). -/
def parseIso (s : String) : Option Int :=
  match s.toList with
  | [y1, y2, y3, y4, c1, o1, o2, c2, d1, d2, c3, h1, h2, c4, i1, i2, c5, e1, e2] =>
    if c1 = '-' && c2 = '-' && c3 = 'T' && c4 = ':' && c5 = ':' &&
        [y1, y2, y3, y4, o1, o2, d1, d2, h1, h2, i1, i2, e1, e2].all Char.isDigit then
      let dv := fun c : Char => c.toNat - 48
      let year : Int := Int.ofNat (dv y1 * 1000 + dv y2 * 100 + dv y3 * 10 + dv y4)
      let month := dv o1 * 10 + dv o2
      let day := dv d1 * 10 + dv d2
      let hour := dv h1 * 10 + dv h2
      let minute := dv i1 * 10 + dv i2
      let sec := dv e1 * 10 + dv e2
      if 1 ≤ month && month ≤ 12 && 1 ≤ day && day ≤ daysInMonth year month &&
          hour ≤ 23 && minute ≤ 59 && sec ≤ 59 then
        some (daysFromCivil year month day * 86400 +
          Int.ofNat (hour * 3600 + minute * 60 + sec))
      else none
    else none
  | _ => none

/-- One decimal digit character. -/
def digitChar (n : Nat) : Char :=
  Char.ofNat (48 + n % 10)

/-- Zero-padded two-digit rendering. -/
def pad2 (n : Nat) : String :=
  String.mk [digitChar (n / 10), digitChar n]

/-- Zero-padded four-digit rendering. -/
def pad4 (n : Nat) : String :=
  String.mk [digitChar (n / 1000), digitChar (n / 100), digitChar (n / 10), digitChar n]

/-- `datetime.isoformat(timespec="seconds")` on an epoch-seconds value. -/
def formatIso (t : Int) : String :=
  let days := Int.ediv t 86400
  let secs := (Int.emod t 86400).toNat
  match civilFromDays days with
  | (y, m, d) =>
    pad4 y.toNat ++ "-" ++ pad2 m ++ "-" ++ pad2 d ++ "T" ++
      pad2 (secs / 3600) ++ ":" ++ pad2 (secs % 3600 / 60) ++ ":" ++ pad2 (secs % 60)

/-- memcmp-style lexicographic order on code points (SQLite's BINARY
collation on the ASCII strings used here). -/
def bytesLe : List Char → List Char → Bool
  | [], _ => true
  | _ :: _, [] => false
  | a :: as, b :: bs =>
    if a.toNat < b.toNat then true
    else if b.toNat < a.toNat then false
    else bytesLe as bs

/-- SQLite `<=` on TEXT. -/
def sqliteLe (a b : String) : Bool :=
  bytesLe a.toList b.toList

/-- SQLite `<` on TEXT. -/
def sqliteLt (a b : String) : Bool :=
  !(sqliteLe b a)

/-- A raw sighting dict: `seen_at` is still an optional string. -/
structure RawSighting where
  seen_at : Option String
  hex : Option String
  reg : Option String
  callsign : Option String
  type_code : Option String
  model : Option String
  manufacturer : Option String
  country : Option String
  country_iso : Option String
  owner : Option String
  airline_name : Option String
  origin_iata : Option String
  origin_name : Option String
  dest_iata : Option String
  dest_name : Option String
  altitude_ft : Option Int
  ground_speed_kt : Option Int
  distance_nm : Option Int
  heading_deg : Option Int
  deriving Repr, DecidableEq

/-- A `flights` row with the three timestamp columns kept as the TEXT
SQLite stores. -/
structure EventS where
  seen_at : String
  hex : Option String
  reg : Option String
  callsign : Option String
  type_code : Option String
  model : Option String
  manufacturer : Option String
  country : Option String
  country_iso : Option String
  owner : Option String
  airline_name : Option String
  origin_iata : Option String
  origin_name : Option String
  dest_iata : Option String
  dest_name : Option String
  altitude_ft : Option Int
  ground_speed_kt : Option Int
  distance_nm : Option Int
  heading_deg : Option Int
  event_key : String
  first_seen : String
  last_seen : String
  times_seen : Int
  deriving Repr, DecidableEq

/-- `_build_event_key` on a raw sighting (identical to `buildEventKey`;
the key only involves the identity strings). -/
def buildEventKeyRaw (r : RawSighting) : String :=
  pyStrip (orEmpty r.hex) ++ "|" ++ pyStrip (orEmpty r.reg) ++ "|" ++ pyStrip (orEmpty r.callsign)

/-- `_insert_new_event` at the string level. -/
def newEventRaw (r : RawSighting) (seen : String) (key : String) : EventS :=
  { seen_at := seen
    hex := r.hex
    reg := r.reg
    callsign := r.callsign
    type_code := r.type_code
    model := r.model
    manufacturer := r.manufacturer
    country := r.country
    country_iso := r.country_iso
    owner := r.owner
    airline_name := r.airline_name
    origin_iata := r.origin_iata
    origin_name := r.origin_name
    dest_iata := r.dest_iata
    dest_name := r.dest_name
    altitude_ft := r.altitude_ft
    ground_speed_kt := r.ground_speed_kt
    distance_nm := r.distance_nm
    heading_deg := r.heading_deg
    event_key := key
    first_seen := seen
    last_seen := seen
    times_seen := 1 }

/-- The UPDATE branch at the string level. -/
def applyUpdateRaw (r : RawSighting) (seen : String) (e : EventS) : EventS :=
  { e with
    last_seen := seen
    seen_at := seen
    times_seen := e.times_seen + 1
    altitude_ft := r.altitude_ft
    ground_speed_kt := r.ground_speed_kt
    distance_nm := r.distance_nm
    heading_deg := r.heading_deg
    model := sticky e.model r.model
    manufacturer := sticky e.manufacturer r.manufacturer
    country := sticky e.country r.country
    country_iso := sticky e.country_iso r.country_iso
    owner := sticky e.owner r.owner
    airline_name := sticky e.airline_name r.airline_name
    origin_iata := sticky e.origin_iata r.origin_iata
    origin_name := sticky e.origin_name r.origin_name
    dest_iata := sticky e.dest_iata r.dest_iata
    dest_name := sticky e.dest_name r.dest_name }

/-- Window-lookup WHERE clause at the string level. -/
def eligibleRaw (key : String) (cutoff : String) (e : EventS) : Bool :=
  e.event_key = key && sqliteLe cutoff e.last_seen

/-- Window lookup (`ORDER BY last_seen DESC LIMIT 1`) at the string level. -/
def bestMatchRaw (key : String) (cutoff : String) : List EventS → Option (Nat × EventS)
  | [] => none
  | e :: rest =>
    if eligibleRaw key cutoff e then
      match bestMatchRaw key cutoff rest with
      | none => some (0, e)
      | some (j, ej) =>
        if sqliteLt e.last_seen ej.last_seen then some (j + 1, ej) else some (0, e)
    else
      (bestMatchRaw key cutoff rest).map (fun p => (p.1 + 1, p.2))

/-- `log_flight` with its raw timestamp handling: a Python-falsy `seen_at`
(absent or `""`) is replaced by `datetime.now()` (passed in rendered as
`nowStr`); a degenerate key inserts without ever parsing; otherwise
`datetime.fromisoformat(seen_at)` runs, and on an unparseable string the
`ValueError` propagates to the caller (`.error`). -/
def logFlightRaw (r : RawSighting) (nowStr : String) (tbl : List EventS) :
    Except String (List EventS) :=
  let seen := match r.seen_at with
    | none => nowStr
    | some s => if s = "" then nowStr else s
  let key := buildEventKeyRaw r
  if keyIsDegenerate key then
    .ok (tbl ++ [newEventRaw r seen key])
  else
    match parseIso seen with
    | none => .error "ValueError: invalid isoformat string"
    | some t =>
      let cutoff := formatIso (t - eventWindowSecs)
      match bestMatchRaw key cutoff tbl with
      | some (i, e) => .ok (tbl.set i (applyUpdateRaw r seen e))
      | none => .ok (tbl ++ [newEventRaw r seen key])

/-! ### Concrete fixtures used by counterexamples and witnesses -/

/-- A sighting with every field absent. -/
def blankSighting : Sighting :=
  { seen_at := none, hex := none, reg := none, callsign := none,
    type_code := none, model := none, manufacturer := none, country := none,
    country_iso := none, owner := none, airline_name := none,
    origin_iata := none, origin_name := none, dest_iata := none,
    dest_name := none, altitude_ft := none, ground_speed_kt := none,
    distance_nm := none, heading_deg := none }

/-- A raw sighting with every field absent. -/
def blankRawSighting : RawSighting :=
  { seen_at := none, hex := none, reg := none, callsign := none,
    type_code := none, model := none, manufacturer := none, country := none,
    country_iso := none, owner := none, airline_name := none,
    origin_iata := none, origin_name := none, dest_iata := none,
    dest_name := none, altitude_ft := none, ground_speed_kt := none,
    distance_nm := none, heading_deg := none }

/-- Fixture: a sighting of hex `A1B2`, callsign `UAL123`, observed at `t`. -/
def sightA (t : Int) : Sighting :=
  { blankSighting with seen_at := some t, hex := some "A1B2", callsign := some "UAL123" }

/-- Fixture: a sighting of registration `N123` observed at `t`. -/
def sightReg (t : Int) : Sighting :=
  { blankSighting with seen_at := some t, reg := some "N123" }

/-- Fixture: first sighting of `A1B2` with empty `type_code` and `owner`. -/
def c3base : Sighting :=
  { blankSighting with
    seen_at := some 0
    hex := some "A1B2"
    type_code := some ""
    owner := some "" }

/-- Fixture: follow-up sighting of `A1B2` carrying `type_code` and `owner`. -/
def c3upd : Sighting :=
  { blankSighting with
    seen_at := some 60
    hex := some "A1B2"
    type_code := some "B738"
    owner := some "Acme" }

/-- Fixture: the row `c3base` inserts. -/
def c3row : Event := newEvent c3base 0 "A1B2||"

/-- Fixture: a raw sighting with an unparseable timestamp string. -/
def c7raw : RawSighting :=
  { blankRawSighting with hex := some "A1B2", seen_at := some "not-a-timestamp" }

/-- Fixture: a raw sighting with no timestamp at all. -/
def c7rawMissing : RawSighting :=
  { blankRawSighting with hex := some "A1B2" }

/-! ## Helper lemmas -/

/-- The window lookup returns `none` exactly when no row satisfies its
WHERE clause. -/
theorem bestMatch_eq_none_iff (key : String) (c : Int) (tbl : List Event) :
    bestMatch key c tbl = none ↔ ∀ e ∈ tbl, eligible key c e = false := by
  induction tbl with
  | nil => simp [bestMatch]
  | cons a rest ih =>
    by_cases ha : eligible key c a = true
    · rw [bestMatch, if_pos ha]
      constructor
      · intro h
        cases hrest : bestMatch key c rest with
        | none => rw [hrest] at h; cases h
        | some p => rw [hrest] at h; cases p with
          | mk j ej => dsimp at h; split at h <;> cases h
      · intro h
        have := h a (List.mem_cons_self a rest)
        rw [ha] at this; cases this
    · rw [bestMatch, if_neg ha]
      rw [Option.map_eq_none', ih]
      constructor
      · intro h e he
        rcases List.mem_cons.1 he with rfl | hm
        · exact Bool.eq_false_iff.2 ha
        · exact h e hm
      · intro h e he; exact h e (List.mem_cons_of_mem a he)

/-- When the window lookup returns a row, that row is in the table at the
returned index, satisfies the WHERE clause, and has maximal `last_seen`
among all rows satisfying it. -/
theorem bestMatch_spec (key : String) (c : Int) :
    ∀ (tbl : List Event) (i : Nat) (e : Event),
      bestMatch key c tbl = some (i, e) →
      tbl[i]? = some e ∧ eligible key c e = true ∧
      ∀ e' ∈ tbl, eligible key c e' = true → e'.last_seen ≤ e.last_seen := by
  intro tbl
  induction tbl with
  | nil => intro i e h; simp [bestMatch] at h
  | cons a rest ih =>
    intro i e h
    by_cases ha : eligible key c a = true
    · rw [bestMatch, if_pos ha] at h
      cases hrest : bestMatch key c rest with
      | none =>
        rw [hrest] at h
        have hi : i = 0 ∧ a = e := by cases h; exact ⟨rfl, rfl⟩
        obtain ⟨rfl, rfl⟩ := hi
        refine ⟨by simp, ha, ?_⟩
        intro e' he' hel
        rcases List.mem_cons.1 he' with rfl | hmem
        · exact le_refl _
        · exact absurd hel (by simp [(bestMatch_eq_none_iff key c rest).1 hrest e' hmem])
      | some p =>
        cases p with
        | mk j ej =>
          rw [hrest] at h; dsimp at h
          obtain ⟨hj, helj, hmaxj⟩ := ih j ej hrest
          split at h
          · rename_i hgt
            have hi : j + 1 = i ∧ ej = e := by cases h; exact ⟨rfl, rfl⟩
            obtain ⟨rfl, rfl⟩ := hi
            refine ⟨by simpa using hj, helj, ?_⟩
            intro e' he' hel
            rcases List.mem_cons.1 he' with rfl | hmem
            · exact le_of_lt hgt
            · exact hmaxj e' hmem hel
          · rename_i hle
            have hi : (0 : Nat) = i ∧ a = e := by cases h; exact ⟨rfl, rfl⟩
            obtain ⟨rfl, rfl⟩ := hi
            refine ⟨by simp, ha, ?_⟩
            intro e' he' hel
            rcases List.mem_cons.1 he' with rfl | hmem
            · exact le_refl _
            · exact le_trans (hmaxj e' hmem hel) (not_lt.1 hle)
    · rw [bestMatch, if_neg ha] at h
      cases hrest : bestMatch key c rest with
      | none => rw [hrest] at h; cases h
      | some p =>
        cases p with
        | mk j ej =>
          rw [hrest] at h; dsimp at h
          have hi : j + 1 = i ∧ ej = e := by cases h; exact ⟨rfl, rfl⟩
          obtain ⟨rfl, rfl⟩ := hi
          obtain ⟨hj, helj, hmaxj⟩ := ih j ej hrest
          refine ⟨by simpa using hj, helj, ?_⟩
          intro e' he' hel
          rcases List.mem_cons.1 he' with rfl | hmem
          · exact absurd hel ha
          · exact hmaxj e' hmem hel

theorem countP_set_add {α : Type} (p : α → Bool) :
    ∀ (l : List α) (i : Nat) (h : i < l.length) (a : α),
      (l.set i a).countP p + (if p (l.get ⟨i, h⟩) then 1 else 0) =
        l.countP p + (if p a then 1 else 0) := by
  intro l
  induction l with
  | nil => intro i h; cases h
  | cons b rest ih =>
    intro i h a
    cases i with
    | zero =>
      simp only [List.set, List.countP_cons, List.get]
      omega
    | succ n =>
      have hn : n < rest.length := by simpa using h
      simp only [List.set, List.countP_cons, List.get]
      have := ih n hn a
      omega

theorem openCount_mono (key : String) (q q2 : Int) (tbl : List Event) (h : q ≤ q2) :
    openCount key q2 tbl ≤ openCount key q tbl := by
  unfold openCount
  apply List.countP_mono_left
  intro e _ he
  unfold openForKey at he ⊢
  simp only [Bool.and_eq_true, decide_eq_true_eq] at he ⊢
  exact ⟨he.1, by omega⟩

theorem length_logFlight_le (r : Sighting) (now : Int) (tbl : List Event) :
    tbl.length ≤ (logFlight r now tbl).length := by
  unfold logFlight
  dsimp only
  split
  · simp
  · split
    · simp
    · simp

theorem length_runLog_le (calls : List (Sighting × Int)) :
    ∀ tbl : List Event, tbl.length ≤ (runLog calls tbl).length := by
  induction calls with
  | nil => intro tbl; simp [runLog]
  | cons c cs ih =>
    intro tbl
    have h1 := length_logFlight_le c.1 c.2 tbl
    have h2 := ih (logFlight c.1 c.2 tbl)
    calc tbl.length ≤ _ := h1
      _ ≤ _ := h2

theorem mem_logFlight (P : Event → Prop) (r : Sighting) (now : Int) (tbl : List Event)
    (hP : ∀ e ∈ tbl, P e)
    (hnew : ∀ key, P (newEvent r (r.seen_at.getD now) key))
    (hupd : ∀ e, e ∈ tbl → P e → P (applyUpdate r (r.seen_at.getD now) e)) :
    ∀ e ∈ logFlight r now tbl, P e := by
  intro e he
  unfold logFlight at he
  dsimp only at he
  split at he
  · rcases List.mem_append.1 he with hm | hm
    · exact hP e hm
    · rcases List.mem_singleton.1 hm with rfl; exact hnew _
  · split at he
    · rename_i i ematch hmatch
      rcases List.mem_or_eq_of_mem_set he with hm | rfl
      · exact hP e hm
      · have hmem : ematch ∈ tbl := by
          obtain ⟨hget, _, _⟩ := bestMatch_spec _ _ tbl i ematch hmatch
          exact List.getElem?_mem hget
        exact hupd _ hmem (hP _ hmem)
    · rcases List.mem_append.1 he with hm | hm
      · exact hP e hm
      · rcases List.mem_singleton.1 hm with rfl; exact hnew _

theorem newEvent_event_key (r : Sighting) (s : Int) (k : String) :
    (newEvent r s k).event_key = k := rfl

theorem newEvent_last_seen (r : Sighting) (s : Int) (k : String) :
    (newEvent r s k).last_seen = s := rfl

theorem newEvent_first_seen (r : Sighting) (s : Int) (k : String) :
    (newEvent r s k).first_seen = s := rfl

theorem newEvent_seen_at (r : Sighting) (s : Int) (k : String) :
    (newEvent r s k).seen_at = s := rfl

theorem newEvent_times_seen (r : Sighting) (s : Int) (k : String) :
    (newEvent r s k).times_seen = 1 := rfl

theorem applyUpdate_event_key (r : Sighting) (s : Int) (e : Event) :
    (applyUpdate r s e).event_key = e.event_key := rfl

theorem applyUpdate_last_seen (r : Sighting) (s : Int) (e : Event) :
    (applyUpdate r s e).last_seen = s := rfl

theorem applyUpdate_seen_at (r : Sighting) (s : Int) (e : Event) :
    (applyUpdate r s e).seen_at = s := rfl

theorem applyUpdate_first_seen (r : Sighting) (s : Int) (e : Event) :
    (applyUpdate r s e).first_seen = e.first_seen := rfl

theorem applyUpdate_times_seen (r : Sighting) (s : Int) (e : Event) :
    (applyUpdate r s e).times_seen = e.times_seen + 1 := rfl

theorem applyUpdate_type_code (r : Sighting) (s : Int) (e : Event) :
    (applyUpdate r s e).type_code = e.type_code := rfl

theorem applyUpdate_hex (r : Sighting) (s : Int) (e : Event) :
    (applyUpdate r s e).hex = e.hex := rfl

theorem applyUpdate_reg (r : Sighting) (s : Int) (e : Event) :
    (applyUpdate r s e).reg = e.reg := rfl

theorem applyUpdate_callsign (r : Sighting) (s : Int) (e : Event) :
    (applyUpdate r s e).callsign = e.callsign := rfl

theorem openForKey_iff (key : String) (q : Int) (e : Event) :
    openForKey key q e = true ↔ e.event_key = key ∧ q - eventWindowSecs ≤ e.last_seen := by
  simp [openForKey]

theorem openForKey_eq_false_iff (key : String) (q : Int) (e : Event) :
    openForKey key q e = false ↔ ¬(e.event_key = key ∧ q - eventWindowSecs ≤ e.last_seen) := by
  rw [Bool.eq_false_iff, Ne, openForKey_iff]

theorem eligible_iff (key : String) (c : Int) (e : Event) :
    eligible key c e = true ↔ e.event_key = key ∧ c ≤ e.last_seen := by
  simp [eligible]

theorem openCount_step (r : Sighting) (now : Int) (tbl : List Event) (T t : Int)
    (hobs : obsTime (r, now) = t) (hT : T ≤ t)
    (hInv : ∀ key, keyIsDegenerate key = false → openCount key T tbl ≤ 1) :
    ∀ key, keyIsDegenerate key = false → openCount key t (logFlight r now tbl) ≤ 1 := by
  intro key hkey
  have hmono := openCount_mono key T t tbl hT
  unfold logFlight
  dsimp only
  have hseen : r.seen_at.getD now = t := hobs
  split
  · rename_i hdeg
    rw [openCount, List.countP_append]
    have hnew : openForKey key t (newEvent r (r.seen_at.getD now) (buildEventKey r)) = false := by
      rw [openForKey_eq_false_iff, newEvent_event_key]
      rintro ⟨hkeq, -⟩
      rw [hkeq] at hdeg
      rw [hdeg] at hkey
      cases hkey
    simp only [List.countP_cons, List.countP_nil, hnew]
    have : tbl.countP (openForKey key t) ≤ 1 := le_trans hmono (hInv key hkey)
    simpa [openCount] using this
  · split
    · rename_i i e hmatch
      obtain ⟨hget, hel, _⟩ := bestMatch_spec _ _ tbl i e hmatch
      have hi : i < tbl.length := (List.getElem?_eq_some.1 hget).1
      have hgeti : tbl.get ⟨i, hi⟩ = e := by
        have := (List.getElem?_eq_some.1 hget).2
        simpa [List.get_eq_getElem] using this
      have hcount := countP_set_add (openForKey key t) tbl i hi
        (applyUpdate r (r.seen_at.getD now) e)
      rw [hgeti] at hcount
      rw [eligible_iff] at hel
      have hpe : openForKey key t e = openForKey key t (applyUpdate r (r.seen_at.getD now) e) := by
        cases hb : openForKey key t e with
        | true =>
          rw [openForKey_iff] at hb
          rw [eq_comm, openForKey_iff, applyUpdate_event_key, applyUpdate_last_seen, hseen]
          refine ⟨hb.1, ?_⟩
          unfold eventWindowSecs
          omega
        | false =>
          rw [openForKey_eq_false_iff] at hb
          rw [eq_comm, openForKey_eq_false_iff, applyUpdate_event_key, applyUpdate_last_seen, hseen]
          rintro ⟨hk2, -⟩
          apply hb
          rw [hseen] at hel
          exact ⟨hk2, by omega⟩
      rw [hpe] at hcount
      have hsetc : (tbl.set i (applyUpdate r (r.seen_at.getD now) e)).countP (openForKey key t) =
          tbl.countP (openForKey key t) := by omega
      rw [openCount, hsetc]
      exact le_trans hmono (hInv key hkey)
    · rename_i hnone
      rw [openCount, List.countP_append]
      by_cases hkeq : buildEventKey r = key
      · have hzero : tbl.countP (openForKey key t) = 0 := by
          rw [List.countP_eq_zero]
          intro e he
          have helf := (bestMatch_eq_none_iff _ _ tbl).1 hnone e he
          rw [Bool.eq_false_iff, Ne, eligible_iff] at helf
          rw [openForKey_iff]
          rintro ⟨hk, hl⟩
          exact helf ⟨by rw [hk, hkeq], by rw [hseen]; exact hl⟩
        rw [hzero]
        cases hb : openForKey key t (newEvent r (r.seen_at.getD now) (buildEventKey r)) <;>
          simp [List.countP_cons, hb]
      · have hnew : openForKey key t (newEvent r (r.seen_at.getD now) (buildEventKey r)) = false := by
          rw [openForKey_eq_false_iff, newEvent_event_key]
          rintro ⟨hk, -⟩
          exact hkeq hk
        simp only [List.countP_cons, List.countP_nil, hnew]
        have : tbl.countP (openForKey key t) ≤ 1 := le_trans hmono (hInv key hkey)
        simpa using this

theorem runLog_openCount (calls : List (Sighting × Int)) :
    ∀ (tbl : List Event) (T : Int),
      (∀ key, keyIsDegenerate key = false → openCount key T tbl ≤ 1) →
      List.Chain' (· ≤ ·) (T :: calls.map obsTime) →
      ∀ q, T ≤ q → (∀ x ∈ calls.map obsTime, x ≤ q) →
      ∀ key, keyIsDegenerate key = false →
        openCount key q (runLog calls tbl) ≤ 1 := by
  induction calls with
  | nil =>
    intro tbl T hInv _ q hq _ key hkey
    calc openCount key q (runLog [] tbl) = openCount key q tbl := by rw [runLog]; rfl
      _ ≤ openCount key T tbl := openCount_mono key T q tbl hq
      _ ≤ 1 := hInv key hkey
  | cons c cs ih =>
    intro tbl T hInv hchain q hq hall key hkey
    have hmap : (c :: cs).map obsTime = obsTime c :: cs.map obsTime := rfl
    rw [hmap] at hchain hall
    have hTc : T ≤ obsTime c := (List.chain'_cons.1 hchain).1
    have hchain2 : List.Chain' (· ≤ ·) (obsTime c :: cs.map obsTime) :=
      (List.chain'_cons.1 hchain).2
    have hstep := openCount_step c.1 c.2 tbl T (obsTime c) rfl hTc hInv
    have hrun : runLog (c :: cs) tbl = runLog cs (logFlight c.1 c.2 tbl) := rfl
    rw [hrun]
    exact ih (logFlight c.1 c.2 tbl) (obsTime c) hstep hchain2 q
      (hall _ (List.mem_cons_self _ _)) (fun x hx => hall x (List.mem_cons_of_mem _ hx)) key hkey

theorem logFlight_cases (r : Sighting) (now : Int) (tbl : List Event) :
    logFlight r now tbl = tbl ++ [newEvent r (r.seen_at.getD now) (buildEventKey r)] ∨
    ∃ i e, bestMatch (buildEventKey r) (r.seen_at.getD now - eventWindowSecs) tbl = some (i, e) ∧
      keyIsDegenerate (buildEventKey r) = false ∧
      logFlight r now tbl = tbl.set i (applyUpdate r (r.seen_at.getD now) e) := by
  unfold logFlight
  dsimp only
  split
  · left; rfl
  · rename_i hdeg
    split
    · rename_i i e hmatch
      right; exact ⟨i, e, hmatch, Bool.eq_false_iff.2 hdeg, rfl⟩
    · left; rfl

theorem logFlight_first_seen_at (r : Sighting) (now : Int) (tbl : List Event)
    (i : Nat) (hi : i < tbl.length) :
    ((logFlight r now tbl)[i]?.map Event.first_seen) = tbl[i]?.map Event.first_seen := by
  rcases logFlight_cases r now tbl with h | ⟨j, e, hmatch, _, h⟩
  · rw [h, List.getElem?_append_left hi]
  · rw [h]
    by_cases hij : j = i
    · subst hij
      obtain ⟨hget, _, _⟩ := bestMatch_spec _ _ tbl j e hmatch
      have hj : j < tbl.length := (List.getElem?_eq_some.1 hget).1
      rw [List.getElem?_set_eq_of_lt _ hj, hget]
      simp [applyUpdate_first_seen, (List.getElem?_eq_some.1 hget).2]
    · rw [List.getElem?_set_ne hij]

theorem logFlight_last_seen_at (r : Sighting) (now : Int) (tbl : List Event) (T t : Int)
    (hobs : obsTime (r, now) = t) (hT : T ≤ t)
    (hWf : ∀ e ∈ tbl, e.last_seen ≤ T)
    (i : Nat) (e0 e1 : Event) (h0 : tbl[i]? = some e0)
    (h1 : (logFlight r now tbl)[i]? = some e1) :
    e0.last_seen ≤ e1.last_seen := by
  have hi : i < tbl.length := (List.getElem?_eq_some.1 h0).1
  rcases logFlight_cases r now tbl with h | ⟨j, e, hmatch, _, h⟩
  · rw [h, List.getElem?_append_left hi, h0] at h1
    cases h1; exact le_refl _
  · rw [h] at h1
    by_cases hij : j = i
    · subst hij
      obtain ⟨hget, _, _⟩ := bestMatch_spec _ _ tbl j e hmatch
      rw [List.getElem?_set_eq_of_lt _ hi] at h1
      cases h1
      rw [applyUpdate_last_seen]
      have : e0.last_seen ≤ T := hWf e0 (List.getElem?_mem h0)
      have hst : r.seen_at.getD now = t := hobs
      rw [hst]
      omega
    · rw [List.getElem?_set_ne hij, h0] at h1
      cases h1; exact le_refl _

theorem logFlight_wf_step (r : Sighting) (now : Int) (tbl : List Event) (T t : Int)
    (hobs : obsTime (r, now) = t) (hT : T ≤ t)
    (hWf : ∀ e ∈ tbl, e.first_seen ≤ e.last_seen ∧ e.last_seen ≤ T) :
    ∀ e ∈ logFlight r now tbl, e.first_seen ≤ e.last_seen ∧ e.last_seen ≤ t := by
  have hst : r.seen_at.getD now = t := hobs
  apply mem_logFlight
  · intro e he
    obtain ⟨h1, h2⟩ := hWf e he
    exact ⟨h1, by omega⟩
  · intro key
    rw [hst]
    refine ⟨le_refl _, le_refl _⟩
  · intro e hmem hP
    obtain ⟨h1, h2⟩ := hWf e hmem
    constructor
    · rw [applyUpdate_first_seen, applyUpdate_last_seen, hst]; omega
    · rw [applyUpdate_last_seen, hst]

theorem buildEventKey_degenerate (r : Sighting)
    (h1 : orEmpty r.hex = "") (h2 : orEmpty r.reg = "") (h3 : orEmpty r.callsign = "") :
    buildEventKey r = "||" := by
  rw [buildEventKey, h1, h2, h3]
  rfl

theorem logFlight_degenerate (r : Sighting) (now : Int)
    (hdeg : keyIsDegenerate (buildEventKey r) = true) (tbl : List Event) :
    logFlight r now tbl = tbl ++ [newEvent r (r.seen_at.getD now) (buildEventKey r)] := by
  unfold logFlight
  dsimp only
  rw [hdeg]
  rfl

theorem runLog_degenerate (calls : List (Sighting × Int))
    (hdeg : ∀ c ∈ calls,
      orEmpty c.1.hex = "" ∧ orEmpty c.1.reg = "" ∧ orEmpty c.1.callsign = "") :
    ∀ tbl, runLog calls tbl = tbl ++ calls.map (fun c => newEvent c.1 (obsTime c) "||") := by
  induction calls with
  | nil => intro tbl; simp [runLog]
  | cons c cs ih =>
    intro tbl
    obtain ⟨h1, h2, h3⟩ := hdeg c (List.mem_cons_self c cs)
    have hkey : buildEventKey c.1 = "||" := buildEventKey_degenerate c.1 h1 h2 h3
    have hdg : keyIsDegenerate (buildEventKey c.1) = true := by rw [hkey]; rfl
    have hstep := logFlight_degenerate c.1 c.2 hdg tbl
    have hrun : runLog (c :: cs) tbl = runLog cs (logFlight c.1 c.2 tbl) := rfl
    rw [hrun, hstep, ih (fun d hd => hdeg d (List.mem_cons_of_mem c hd)), hkey]
    rw [List.map_cons, List.append_assoc]
    rfl

theorem logFlight_nil (r : Sighting) (now : Int) :
    logFlight r now [] = [newEvent r (r.seen_at.getD now) (buildEventKey r)] := by
  rcases logFlight_cases r now [] with h | ⟨i, e, hmatch, _, _⟩
  · simpa using h
  · rw [bestMatch] at hmatch; cases hmatch

theorem logFlight_singleton (r : Sighting) (now : Int) (e0 : Event) :
    logFlight r now [e0] = [e0, newEvent r (r.seen_at.getD now) (buildEventKey r)] ∨
    logFlight r now [e0] = [applyUpdate r (r.seen_at.getD now) e0] := by
  rcases logFlight_cases r now [e0] with h | ⟨i, e, hmatch, _, h⟩
  · left; exact h
  · right
    obtain ⟨hget, _, _⟩ := bestMatch_spec _ _ [e0] i e hmatch
    have hi : i < 1 := by simpa using (List.getElem?_eq_some.1 hget).1
    have hizero : i = 0 := by omega
    subst hizero
    have he : e = e0 := by
      have := (List.getElem?_eq_some.1 hget).2
      simp at this
      exact this.symm
    subst he
    exact h

theorem runLog_singleton (calls : List (Sighting × Int)) :
    ∀ e0 efin, runLog calls [e0] = [efin] →
      efin.times_seen = e0.times_seen + calls.length ∧
      efin.first_seen = e0.first_seen ∧
      efin.last_seen = (match calls.getLast? with
        | none => e0.last_seen
        | some c => obsTime c) := by
  induction calls with
  | nil =>
    intro e0 efin h
    have he : e0 = efin := by
      have : runLog [] [e0] = [e0] := rfl
      rw [this] at h
      exact (List.cons_eq_cons.1 h).1
    subst he
    exact ⟨by simp, rfl, rfl⟩
  | cons c cs ih =>
    intro e0 efin h
    have hrun : runLog (c :: cs) [e0] = runLog cs (logFlight c.1 c.2 [e0]) := rfl
    rw [hrun] at h
    rcases logFlight_singleton c.1 c.2 e0 with hins | hupd
    · exfalso
      rw [hins] at h
      have hlen := length_runLog_le cs [e0, newEvent c.1 (c.1.seen_at.getD c.2) (buildEventKey c.1)]
      rw [h] at hlen
      simp at hlen
    · rw [hupd] at h
      obtain ⟨ht, hf, hl⟩ := ih (applyUpdate c.1 (c.1.seen_at.getD c.2) e0) efin h
      refine ⟨?_, ?_, ?_⟩
      · rw [ht, applyUpdate_times_seen]
        simp only [List.length_cons]
        omega
      · rw [hf, applyUpdate_first_seen]
      · cases cs with
        | nil =>
          simp only [List.getLast?_singleton]
          rw [hl]
          exact applyUpdate_last_seen c.1 (c.1.seen_at.getD c.2) e0
        | cons d ds =>
          rw [List.getLast?_cons_cons, hl,
            List.getLast?_eq_getLast_of_ne_nil (List.cons_ne_nil d ds)]

theorem chain_head_le (l : List Int) :
    ∀ a, List.Chain' (· ≤ ·) (a :: l) → ∀ x ∈ a :: l, a ≤ x := by
  induction l with
  | nil =>
    intro a _ x hx
    rcases List.mem_singleton.1 hx with rfl
    exact le_refl _
  | cons b l2 ih =>
    intro a h x hx
    have hab : a ≤ b := (List.chain'_cons.1 h).1
    have h2 := (List.chain'_cons.1 h).2
    rcases List.mem_cons.1 hx with rfl | hx2
    · exact le_refl _
    · exact le_trans hab (ih b h2 x hx2)

theorem chain_le_getLast (l : List Int) :
    ∀ a, List.Chain' (· ≤ ·) (a :: l) →
      ∀ x ∈ a :: l, x ≤ (a :: l).getLast (List.cons_ne_nil a l) := by
  induction l with
  | nil =>
    intro a _ x hx
    rcases List.mem_singleton.1 hx with rfl
    exact le_refl _
  | cons b l2 ih =>
    intro a h x hx
    have hab : a ≤ b := (List.chain'_cons.1 h).1
    have h2 := (List.chain'_cons.1 h).2
    rw [List.getLast_cons (List.cons_ne_nil b l2)]
    rcases List.mem_cons.1 hx with rfl | hx2
    · exact le_trans (le_trans hab (chain_head_le l2 b h2 b (List.mem_cons_self b l2)))
        (le_trans (le_refl _) (by
          have := ih b h2 b (List.mem_cons_self b l2)
          exact this))
    · exact ih b h2 x hx2

theorem runLog_seen_at_eq_last_seen (calls : List (Sighting × Int)) :
    ∀ tbl, (∀ e ∈ tbl, e.seen_at = e.last_seen) →
      ∀ e ∈ runLog calls tbl, e.seen_at = e.last_seen := by
  induction calls with
  | nil => intro tbl h e he; exact h e he
  | cons c cs ih =>
    intro tbl h e he
    have hrun : runLog (c :: cs) tbl = runLog cs (logFlight c.1 c.2 tbl) := rfl
    rw [hrun] at he
    refine ih (logFlight c.1 c.2 tbl) ?_ e he
    apply mem_logFlight
    · exact h
    · intro key
      rw [newEvent_seen_at, newEvent_last_seen]
    · intro e2 _ _
      rw [applyUpdate_seen_at, applyUpdate_last_seen]

theorem foldl_min_le (l : List Int) : ∀ a, ∀ x ∈ a :: l, l.foldl min a ≤ x := by
  induction l with
  | nil =>
    intro a x hx
    rcases List.mem_singleton.1 hx with rfl
    exact le_refl _
  | cons b l2 ih =>
    intro a x hx
    have hfold : (b :: l2).foldl min a = l2.foldl min (min a b) := rfl
    rw [hfold]
    rcases List.mem_cons.1 hx with heq | hx2
    · rw [heq]
      exact le_trans (ih (min a b) _ (List.mem_cons_self _ _)) (min_le_left _ _)
    · rcases List.mem_cons.1 hx2 with heq2 | hx3
      · rw [heq2]
        exact le_trans (ih (min a b) _ (List.mem_cons_self _ _)) (min_le_right _ _)
      · exact ih (min a b) x (List.mem_cons_of_mem _ hx3)

theorem foldl_min_mem (l : List Int) : ∀ a, l.foldl min a ∈ a :: l := by
  induction l with
  | nil => intro a; simp
  | cons b l2 ih =>
    intro a
    have hfold : (b :: l2).foldl min a = l2.foldl min (min a b) := rfl
    rw [hfold]
    rcases List.mem_cons.1 (ih (min a b)) with heq | hmem
    · rcases min_choice a b with hab | hab
      · rw [heq, hab]; exact List.mem_cons_self _ _
      · rw [heq, hab]
        exact List.mem_cons_of_mem _ (List.mem_cons_self _ _)
    · exact List.mem_cons_of_mem _ (List.mem_cons_of_mem _ hmem)

theorem foldl_max_le (l : List Int) : ∀ a, ∀ x ∈ a :: l, x ≤ l.foldl max a := by
  induction l with
  | nil =>
    intro a x hx
    rcases List.mem_singleton.1 hx with rfl
    exact le_refl _
  | cons b l2 ih =>
    intro a x hx
    have hfold : (b :: l2).foldl max a = l2.foldl max (max a b) := rfl
    rw [hfold]
    rcases List.mem_cons.1 hx with heq | hx2
    · rw [heq]
      exact le_trans (le_max_left _ _) (ih (max a b) _ (List.mem_cons_self _ _))
    · rcases List.mem_cons.1 hx2 with heq2 | hx3
      · rw [heq2]
        exact le_trans (le_max_right _ _) (ih (max a b) _ (List.mem_cons_self _ _))
      · exact ih (max a b) x (List.mem_cons_of_mem _ hx3)

theorem foldl_max_mem (l : List Int) : ∀ a, l.foldl max a ∈ a :: l := by
  induction l with
  | nil => intro a; simp
  | cons b l2 ih =>
    intro a
    have hfold : (b :: l2).foldl max a = l2.foldl max (max a b) := rfl
    rw [hfold]
    rcases List.mem_cons.1 (ih (max a b)) with heq | hmem
    · rcases max_choice a b with hab | hab
      · rw [heq, hab]; exact List.mem_cons_self _ _
      · rw [heq, hab]
        exact List.mem_cons_of_mem _ (List.mem_cons_self _ _)
    · exact List.mem_cons_of_mem _ (List.mem_cons_of_mem _ hmem)

theorem getElem?_concat_self {α : Type} (l : List α) (b : α) :
    (l ++ [b])[l.length]? = some b := by
  rw [List.getElem?_append_right (le_refl l.length)]
  simp

theorem filter_getLast_spec (p : Event → Bool) :
    ∀ (l : List Event) (a : Event), (l.filter p).getLast? = some a →
      p a = true ∧ ∃ i : Nat, l[i]? = some a ∧
        ∀ j : Nat, i < j → ∀ bj, l[j]? = some bj → p bj = false := by
  intro l
  induction l using List.reverseRecOn with
  | nil => intro a h; simp at h
  | append_singleton l2 b ih =>
    intro a h
    rw [List.filter_append] at h
    by_cases hb : p b = true
    · rw [List.filter_singleton, hb, cond_true, List.getLast?_concat] at h
      have hab : b = a := by cases h; rfl
      refine ⟨hab ▸ hb, l2.length, ?_, ?_⟩
      · rw [← hab]
        exact getElem?_concat_self l2 b
      · intro j hj bj hbj
        have hlt : j < l2.length + 1 := by
          by_contra hge
          rw [List.getElem?_len_le (show (l2 ++ [b]).length ≤ j by simp; omega)] at hbj
          cases hbj
        omega
    · rw [List.filter_singleton, Bool.eq_false_iff.2 hb, cond_false,
        List.append_nil] at h
      obtain ⟨hpa, i, hget, hafter⟩ := ih a h
      have hilt : i < l2.length := (List.getElem?_eq_some.1 hget).1
      refine ⟨hpa, i, ?_, ?_⟩
      · rw [List.getElem?_append_left hilt]
        exact hget
      · intro j hj bj hbj
        by_cases hjl : j < l2.length
        · rw [List.getElem?_append_left hjl] at hbj
          exact hafter j hj bj hbj
        · by_cases hje : j = l2.length
          · subst hje
            rw [getElem?_concat_self l2 b] at hbj
            have hbe : b = bj := by cases hbj; rfl
            rw [← hbe]
            exact Bool.eq_false_iff.2 hb
          · rw [List.getElem?_len_le (show (l2 ++ [b]).length ≤ j by simp; omega)] at hbj
            cases hbj

theorem logFlight_nondegen (r : Sighting) (now : Int) (tbl : List Event)
    (hkey : keyIsDegenerate (buildEventKey r) = false) :
    logFlight r now tbl =
      match bestMatch (buildEventKey r) (r.seen_at.getD now - eventWindowSecs) tbl with
      | some (i, e) => tbl.set i (applyUpdate r (r.seen_at.getD now) e)
      | none => tbl ++ [newEvent r (r.seen_at.getD now) (buildEventKey r)] := by
  unfold logFlight
  dsimp only
  rw [hkey]
  rfl

theorem sticky_spec (old new : Option String) : stickyMerged old new (sticky old new) := by
  constructor
  · rintro (rfl | rfl) <;> rfl
  · intro h1 h2
    unfold sticky
    rw [if_neg h2]
    cases old with
    | none => exact absurd rfl h1
    | some v => rfl

/-- **C1**: for a sighting with a non-degenerate `event_key`, `log_flight`
updates the row with the greatest `last_seen` among rows with the same key
and `last_seen >= observed_at - 20 min`, inserting a new row when none
exists; at the window boundary, a same-key sighting at `T + WINDOW - 1s`
updates the event last seen at `T`, while one at `T + WINDOW + 1s`
starts a new event. -/
theorem C1_window_rule (r : Sighting) (now : Int) (tbl : List Event)
    (hkey : keyIsDegenerate (buildEventKey r) = false) :
    (bestMatch (buildEventKey r) (r.seen_at.getD now - eventWindowSecs) tbl = none →
      (∀ e ∈ tbl, ¬(e.event_key = buildEventKey r ∧
        r.seen_at.getD now - eventWindowSecs ≤ e.last_seen)) ∧
      logFlight r now tbl = tbl ++ [newEvent r (r.seen_at.getD now) (buildEventKey r)]) ∧
    (∀ i : Nat, ∀ e : Event,
      bestMatch (buildEventKey r) (r.seen_at.getD now - eventWindowSecs) tbl = some (i, e) →
      tbl[i]? = some e ∧ e.event_key = buildEventKey r ∧
      r.seen_at.getD now - eventWindowSecs ≤ e.last_seen ∧
      (∀ e2 ∈ tbl, e2.event_key = buildEventKey r →
        r.seen_at.getD now - eventWindowSecs ≤ e2.last_seen → e2.last_seen ≤ e.last_seen) ∧
      logFlight r now tbl = tbl.set i (applyUpdate r (r.seen_at.getD now) e)) ∧
    (runLog [(sightA 0, 0), (sightA 1199, 0)] []).map
      (fun e => (e.times_seen, e.last_seen)) = [(2, 1199)] ∧
    (runLog [(sightA 0, 0), (sightA 1201, 0)] []).map
      (fun e => (e.times_seen, e.last_seen)) = [(1, 0), (1, 1201)] := by
  refine ⟨?_, ?_, by decide, by decide⟩
  · intro hnone
    constructor
    · intro e he
      have := (bestMatch_eq_none_iff _ _ tbl).1 hnone e he
      rw [Bool.eq_false_iff, Ne, eligible_iff] at this
      exact this
    · rw [logFlight_nondegen r now tbl hkey, hnone]
  · intro i e hmatch
    obtain ⟨hget, hel, hmax⟩ := bestMatch_spec _ _ tbl i e hmatch
    rw [eligible_iff] at hel
    refine ⟨hget, hel.1, hel.2, ?_, ?_⟩
    · intro e2 he2 hk2 hl2
      exact hmax e2 he2 (by rw [eligible_iff]; exact ⟨hk2, hl2⟩)
    · rw [logFlight_nondegen r now tbl hkey, hmatch]

/-- Witness for `C1_window_rule` at a concrete input. -/
theorem C1_window_rule_witness :
    keyIsDegenerate (buildEventKey (sightA 42)) = false ∧
    (runLog [(sightA 0, 0), (sightA 1199, 0)] []).map
      (fun e => (e.times_seen, e.last_seen)) = [(2, 1199)] :=
  ⟨by decide, (C1_window_rule (sightA 42) 0 [] (by decide)).2.2.1⟩

/-- **C5**: sightings whose hex, registration and callsign are all empty or
absent always insert: N such calls append N fresh rows, each with
`times_seen = 1` and the degenerate key `"||"`, and no prior row is
touched. -/
theorem C5_degenerate_inserts (calls : List (Sighting × Int)) (tbl : List Event)
    (hdeg : ∀ c ∈ calls, (c.1.hex = none ∨ c.1.hex = some "") ∧
      (c.1.reg = none ∨ c.1.reg = some "") ∧
      (c.1.callsign = none ∨ c.1.callsign = some "")) :
    runLog calls tbl = tbl ++ calls.map (fun c => newEvent c.1 (obsTime c) "||") ∧
    (runLog calls tbl).length = tbl.length + calls.length ∧
    keyIsDegenerate "||" = true ∧
    ∀ c ∈ calls, (newEvent c.1 (obsTime c) "||").times_seen = 1 ∧
      (newEvent c.1 (obsTime c) "||").event_key = "||" := by
  have horE : ∀ c ∈ calls,
      orEmpty c.1.hex = "" ∧ orEmpty c.1.reg = "" ∧ orEmpty c.1.callsign = "" := by
    intro c hc
    obtain ⟨h1, h2, h3⟩ := hdeg c hc
    refine ⟨?_, ?_, ?_⟩
    · rcases h1 with h | h <;> rw [h] <;> rfl
    · rcases h2 with h | h <;> rw [h] <;> rfl
    · rcases h3 with h | h <;> rw [h] <;> rfl
  have heq := runLog_degenerate calls horE tbl
  refine ⟨heq, ?_, by decide, ?_⟩
  · rw [heq]
    simp
  · intro c _
    exact ⟨rfl, rfl⟩

/-- Witness for `C5_degenerate_inserts` at a concrete input. -/
theorem C5_degenerate_inserts_witness :
    ((blankSighting.hex = none ∨ blankSighting.hex = some "") ∧
      (blankSighting.reg = none ∨ blankSighting.reg = some "") ∧
      (blankSighting.callsign = none ∨ blankSighting.callsign = some "")) ∧
    runLog [(blankSighting, 0), (blankSighting, 99)] [] =
      [] ++ [(blankSighting, (0 : Int)), (blankSighting, 99)].map
        (fun c => newEvent c.1 (obsTime c) "||") :=
  ⟨⟨Or.inl rfl, Or.inl rfl, Or.inl rfl⟩,
    (C5_degenerate_inserts [(blankSighting, 0), (blankSighting, 99)] []
      (by decide)).1⟩

/-- **C10**: every row the coalescer writes has `seen_at = last_seen`: an
insert sets `seen_at`, `first_seen` and `last_seen` to the same timestamp,
an update overwrites `seen_at` and `last_seen` with the sighting's
timestamp, and hence every row of any table built from empty by
`log_flight` calls satisfies `seen_at = last_seen`. -/
theorem C10_seen_at_tracks_last_seen :
    (∀ (r : Sighting) (seen : Int) (key : String),
      (newEvent r seen key).seen_at = seen ∧
      (newEvent r seen key).first_seen = seen ∧
      (newEvent r seen key).last_seen = seen) ∧
    (∀ (r : Sighting) (seen : Int) (e : Event),
      (applyUpdate r seen e).seen_at = seen ∧ (applyUpdate r seen e).last_seen = seen) ∧
    (∀ calls : List (Sighting × Int), ∀ e ∈ runLog calls [], e.seen_at = e.last_seen) := by
  refine ⟨fun r seen key => ⟨rfl, rfl, rfl⟩, fun r seen e => ⟨rfl, rfl⟩, ?_⟩
  intro calls e he
  refine runLog_seen_at_eq_last_seen calls [] ?_ e he
  intro e2 h
  cases h

/-- Witness for `C10_seen_at_tracks_last_seen` at a concrete input. -/
theorem C10_seen_at_tracks_last_seen_witness :
    newEvent (sightA 7) 7 "A1B2||UAL123" ∈ runLog [(sightA 7, 0)] [] ∧
    (newEvent (sightA 7) 7 "A1B2||UAL123").seen_at =
      (newEvent (sightA 7) 7 "A1B2||UAL123").last_seen :=
  ⟨by decide,
    C10_seen_at_tracks_last_seen.2.2 [(sightA 7, 0)]
      (newEvent (sightA 7) 7 "A1B2||UAL123") (by decide)⟩

/-- **C8**: each `log_flight` call either appends exactly one new row or
rewrites exactly one existing row — the freshest eligible one — leaving
every other row and the updated row's `hex`, `reg`, `callsign`,
`event_key`, `type_code` and `first_seen` columns unchanged. -/
theorem C8_one_insert_or_one_update (r : Sighting) (now : Int) (tbl : List Event) :
    (logFlight r now tbl = tbl ++ [newEvent r (r.seen_at.getD now) (buildEventKey r)]) ∨
    (∃ i : Nat, ∃ e : Event, tbl[i]? = some e ∧
      logFlight r now tbl = tbl.set i (applyUpdate r (r.seen_at.getD now) e) ∧
      eligible (buildEventKey r) (r.seen_at.getD now - eventWindowSecs) e = true ∧
      (∀ e2 ∈ tbl, eligible (buildEventKey r) (r.seen_at.getD now - eventWindowSecs) e2 = true →
        e2.last_seen ≤ e.last_seen) ∧
      (applyUpdate r (r.seen_at.getD now) e).hex = e.hex ∧
      (applyUpdate r (r.seen_at.getD now) e).reg = e.reg ∧
      (applyUpdate r (r.seen_at.getD now) e).callsign = e.callsign ∧
      (applyUpdate r (r.seen_at.getD now) e).event_key = e.event_key ∧
      (applyUpdate r (r.seen_at.getD now) e).first_seen = e.first_seen ∧
      (applyUpdate r (r.seen_at.getD now) e).type_code = e.type_code ∧
      ∀ j : Nat, j ≠ i → (logFlight r now tbl)[j]? = tbl[j]?) := by
  rcases logFlight_cases r now tbl with h | ⟨i, e, hmatch, hkey, h⟩
  · left; exact h
  · right
    obtain ⟨hget, hel, hmax⟩ := bestMatch_spec _ _ tbl i e hmatch
    refine ⟨i, e, hget, h, hel, hmax, rfl, rfl, rfl, rfl, rfl, rfl, ?_⟩
    intro j hj
    rw [h, List.getElem?_set_ne (fun hij => hj hij.symm)]

/-- Witness for `C8_one_insert_or_one_update` at a concrete input. -/
theorem C8_one_insert_or_one_update_witness :
    (logFlight (sightA 3) 0 [] =
      [] ++ [newEvent (sightA 3) ((sightA 3).seen_at.getD 0) (buildEventKey (sightA 3))]) ∨
    (∃ i : Nat, ∃ e : Event, ([] : List Event)[i]? = some e ∧
      logFlight (sightA 3) 0 [] =
        ([] : List Event).set i (applyUpdate (sightA 3) ((sightA 3).seen_at.getD 0) e) ∧
      eligible (buildEventKey (sightA 3))
        ((sightA 3).seen_at.getD 0 - eventWindowSecs) e = true ∧
      (∀ e2 ∈ ([] : List Event),
        eligible (buildEventKey (sightA 3)) ((sightA 3).seen_at.getD 0 - eventWindowSecs) e2 =
          true → e2.last_seen ≤ e.last_seen) ∧
      (applyUpdate (sightA 3) ((sightA 3).seen_at.getD 0) e).hex = e.hex ∧
      (applyUpdate (sightA 3) ((sightA 3).seen_at.getD 0) e).reg = e.reg ∧
      (applyUpdate (sightA 3) ((sightA 3).seen_at.getD 0) e).callsign = e.callsign ∧
      (applyUpdate (sightA 3) ((sightA 3).seen_at.getD 0) e).event_key = e.event_key ∧
      (applyUpdate (sightA 3) ((sightA 3).seen_at.getD 0) e).first_seen = e.first_seen ∧
      (applyUpdate (sightA 3) ((sightA 3).seen_at.getD 0) e).type_code = e.type_code ∧
      ∀ j : Nat, j ≠ i → (logFlight (sightA 3) 0 [])[j]? = ([] : List Event)[j]?) :=
  C8_one_insert_or_one_update (sightA 3) 0 []

/-- **C3 counterexample**: `type_code` is not in the UPDATE's SET list, so
an event created with `type_code = ""` keeps `""` even when the coalescing
sighting carries `type_code = "B738"` — the claimed sticky fill does not
happen for `type_code`. -/
theorem C3_counterexample :
    (runLog [(c3base, 0), (c3upd, 0)] []).map (fun e => e.type_code) = [some ""] ∧
    c3upd.type_code = some "B738" ∧
    (some "" : Option String) ≠ some "B738" :=
  ⟨by decide, rfl, by decide⟩

/-- **C3 amended**: on an update, the four numeric telemetry columns are
overwritten verbatim (even to NULL), the ten COALESCE/NULLIF descriptive
columns are sticky-merged, and `type_code` — absent from the SET list — is
left with its old value unconditionally. -/
theorem C3_update_merge (r : Sighting) (now : Int) (tbl : List Event) (i : Nat) (e : Event)
    (hkey : keyIsDegenerate (buildEventKey r) = false)
    (hmatch : bestMatch (buildEventKey r) (r.seen_at.getD now - eventWindowSecs) tbl =
      some (i, e)) :
    ∃ u : Event, logFlight r now tbl = tbl.set i u ∧
      u.altitude_ft = r.altitude_ft ∧
      u.ground_speed_kt = r.ground_speed_kt ∧
      u.distance_nm = r.distance_nm ∧
      u.heading_deg = r.heading_deg ∧
      stickyMerged e.model r.model u.model ∧
      stickyMerged e.manufacturer r.manufacturer u.manufacturer ∧
      stickyMerged e.country r.country u.country ∧
      stickyMerged e.country_iso r.country_iso u.country_iso ∧
      stickyMerged e.owner r.owner u.owner ∧
      stickyMerged e.airline_name r.airline_name u.airline_name ∧
      stickyMerged e.origin_iata r.origin_iata u.origin_iata ∧
      stickyMerged e.origin_name r.origin_name u.origin_name ∧
      stickyMerged e.dest_iata r.dest_iata u.dest_iata ∧
      stickyMerged e.dest_name r.dest_name u.dest_name ∧
      u.type_code = e.type_code := by
  refine ⟨applyUpdate r (r.seen_at.getD now) e, ?_, rfl, rfl, rfl, rfl,
    sticky_spec _ _, sticky_spec _ _, sticky_spec _ _, sticky_spec _ _, sticky_spec _ _,
    sticky_spec _ _, sticky_spec _ _, sticky_spec _ _, sticky_spec _ _, sticky_spec _ _, rfl⟩
  rw [logFlight_nondegen r now tbl hkey, hmatch]

/-- Witness for `C3_update_merge` at a concrete input. -/
theorem C3_update_merge_witness :
    (keyIsDegenerate (buildEventKey c3upd) = false ∧
      bestMatch (buildEventKey c3upd) (c3upd.seen_at.getD 0 - eventWindowSecs) [c3row] =
        some (0, c3row)) ∧
    ∃ u : Event, logFlight c3upd 0 [c3row] = [c3row].set 0 u ∧
      u.altitude_ft = c3upd.altitude_ft ∧
      u.ground_speed_kt = c3upd.ground_speed_kt ∧
      u.distance_nm = c3upd.distance_nm ∧
      u.heading_deg = c3upd.heading_deg ∧
      stickyMerged c3row.model c3upd.model u.model ∧
      stickyMerged c3row.manufacturer c3upd.manufacturer u.manufacturer ∧
      stickyMerged c3row.country c3upd.country u.country ∧
      stickyMerged c3row.country_iso c3upd.country_iso u.country_iso ∧
      stickyMerged c3row.owner c3upd.owner u.owner ∧
      stickyMerged c3row.airline_name c3upd.airline_name u.airline_name ∧
      stickyMerged c3row.origin_iata c3upd.origin_iata u.origin_iata ∧
      stickyMerged c3row.origin_name c3upd.origin_name u.origin_name ∧
      stickyMerged c3row.dest_iata c3upd.dest_iata u.dest_iata ∧
      stickyMerged c3row.dest_name c3upd.dest_name u.dest_name ∧
      u.type_code = c3row.type_code :=
  ⟨⟨by decide, by decide⟩, C3_update_merge c3upd 0 [c3row] 0 c3row (by decide) (by decide)⟩

/-- **C4 counterexample**: with out-of-order `observed_at` values an update
moves `last_seen` backwards and below `first_seen`: after a sighting at
5000 and one at 1000 the single row has `first_seen = 5000 > last_seen =
1000`. -/
theorem C4_counterexample :
    (runLog [(sightA 5000, 0), (sightA 1000, 0)] []).map
      (fun e => (e.first_seen, e.last_seen)) = [(5000, 1000)] ∧
    (runLog [(sightA 5000, 0)] []).map (fun e => e.last_seen) = [5000] ∧
    ¬((5000 : Int) ≤ 1000) :=
  ⟨by decide, by decide, by decide⟩

/-- **C4 amended**: `first_seen` is immutable after insertion for arbitrary
`observed_at` values; when the observed times are non-decreasing, every
row keeps `first_seen ≤ last_seen` and `last_seen` never decreases. -/
theorem C4_timestamps (r : Sighting) (now : Int) (tbl : List Event) (T t : Int) :
    (∀ i : Nat, i < tbl.length →
      (logFlight r now tbl)[i]?.map Event.first_seen = tbl[i]?.map Event.first_seen) ∧
    (obsTime (r, now) = t → T ≤ t →
      (∀ e ∈ tbl, e.first_seen ≤ e.last_seen ∧ e.last_seen ≤ T) →
      (∀ e ∈ logFlight r now tbl, e.first_seen ≤ e.last_seen ∧ e.last_seen ≤ t) ∧
      (∀ i : Nat, ∀ e0 e1 : Event, tbl[i]? = some e0 → (logFlight r now tbl)[i]? = some e1 →
        e0.last_seen ≤ e1.last_seen)) := by
  constructor
  · intro i hi
    exact logFlight_first_seen_at r now tbl i hi
  · intro hobs hT hWf
    constructor
    · exact logFlight_wf_step r now tbl T t hobs hT hWf
    · intro i e0 e1 h0 h1
      exact logFlight_last_seen_at r now tbl T t hobs hT
        (fun e he => (hWf e he).2) i e0 e1 h0 h1

/-- Witness for `C4_timestamps` at a concrete input. -/
theorem C4_timestamps_witness :
    (obsTime (sightA 60, 0) = 60 ∧ (0 : Int) ≤ 60 ∧
      (∀ e ∈ [newEvent (sightA 0) 0 "A1B2||UAL123"],
        e.first_seen ≤ e.last_seen ∧ e.last_seen ≤ 0)) ∧
    (∀ e ∈ logFlight (sightA 60) 0 [newEvent (sightA 0) 0 "A1B2||UAL123"],
      e.first_seen ≤ e.last_seen ∧ e.last_seen ≤ 60) :=
  ⟨⟨rfl, by decide, by decide⟩,
    ((C4_timestamps (sightA 60) 0 [newEvent (sightA 0) 0 "A1B2||UAL123"] 0 60).2
      rfl (by decide) (by decide)).1⟩

/-- **C6 counterexample**: two out-of-order sightings coalesce into one
event whose `first_seen` (3000) is not the earliest observed time (2000)
and whose `last_seen` (2000) is not the latest (3000); only
`times_seen = 2` survives. -/
theorem C6_counterexample :
    (runLog [(sightA 3000, 0), (sightA 2000, 0)] []).map
      (fun e => (e.times_seen, e.first_seen, e.last_seen)) = [(2, 3000, 2000)] ∧
    min (3000 : Int) 2000 = 2000 ∧ max (3000 : Int) 2000 = 3000 :=
  ⟨by decide, by decide, by decide⟩

/-- **C6 amended**: when M sightings all coalesce into one event, that
event ends with `times_seen = M`, `first_seen` equal to the first
sighting's observed time and `last_seen` equal to the last sighting's;
these are the earliest and the latest observed times whenever the observed
times are non-decreasing. -/
theorem C6_coalesced_counts (calls : List (Sighting × Int)) (efin : Event)
    (hone : runLog calls [] = [efin]) :
    efin.times_seen = (calls.length : Int) ∧
    (∀ c0, calls.head? = some c0 → efin.first_seen = obsTime c0) ∧
    (∀ cl, calls.getLast? = some cl → efin.last_seen = obsTime cl) ∧
    (List.Chain' (· ≤ ·) (calls.map obsTime) →
      ∀ c ∈ calls, efin.first_seen ≤ obsTime c ∧ obsTime c ≤ efin.last_seen) := by
  cases calls with
  | nil => cases hone
  | cons c cs =>
    have hrun : runLog (c :: cs) [] = runLog cs (logFlight c.1 c.2 []) := rfl
    rw [hrun, logFlight_nil] at hone
    obtain ⟨ht, hf, hl⟩ := runLog_singleton cs _ efin hone
    rw [newEvent_times_seen] at ht
    rw [newEvent_first_seen] at hf
    have hobs : c.1.seen_at.getD c.2 = obsTime c := rfl
    refine ⟨?_, ?_, ?_, ?_⟩
    · rw [ht]
      simp only [List.length_cons]
      omega
    · intro c0 hc0
      have : c0 = c := by cases hc0; rfl
      rw [this, hf, hobs]
    · intro cl hcl
      cases cs with
      | nil =>
        have : cl = c := by cases hcl; rfl
        rw [this, hl, newEvent_last_seen, hobs]
        rfl
      | cons d ds =>
        rw [List.getLast?_cons_cons] at hcl
        rw [hl, hcl, hobs]
    · intro hchain c2 hc2
      have hmap : (c :: cs).map obsTime = obsTime c :: cs.map obsTime := rfl
      rw [hmap] at hchain
      have hmem : obsTime c2 ∈ obsTime c :: cs.map obsTime := by
        rw [← hmap]
        exact List.mem_map_of_mem obsTime hc2
      constructor
      · rw [hf, hobs]
        exact chain_head_le (cs.map obsTime) (obsTime c) hchain (obsTime c2) hmem
      · have hbound := chain_le_getLast (cs.map obsTime) (obsTime c) hchain (obsTime c2) hmem
        have hlast : efin.last_seen =
            (obsTime c :: cs.map obsTime).getLast (List.cons_ne_nil _ _) := by
          cases cs with
          | nil => rw [hl, newEvent_last_seen, hobs]; rfl
          | cons d ds =>
            rw [List.getLast_cons (by simp : (d :: ds).map obsTime ≠ [])]
            rw [hl, List.getLast?_eq_getLast_of_ne_nil (List.cons_ne_nil d ds)]
            have hgm : ((d :: ds).map obsTime).getLast (by simp) =
                obsTime ((d :: ds).getLast (List.cons_ne_nil d ds)) := by
              rw [List.getLast_map]
            exact hgm.symm
        rw [hlast]
        exact hbound

/-- Witness for `C6_coalesced_counts` at a concrete input. -/
theorem C6_coalesced_counts_witness :
    runLog [(sightA 0, 0), (sightA 100, 0)] [] =
      [applyUpdate (sightA 100) 100 (newEvent (sightA 0) 0 "A1B2||UAL123")] ∧
    (applyUpdate (sightA 100) 100 (newEvent (sightA 0) 0 "A1B2||UAL123")).times_seen =
      (([(sightA 0, (0 : Int)), (sightA 100, 0)].length : Nat) : Int) :=
  ⟨by decide,
    (C6_coalesced_counts [(sightA 0, 0), (sightA 100, 0)]
      (applyUpdate (sightA 100) 100 (newEvent (sightA 0) 0 "A1B2||UAL123")) (by decide)).1⟩

/-- **C2 counterexample**: the open-event uniqueness fails both (i) for a
non-degenerate key once `observed_at` values arrive out of order — after
sightings at 0, 5000 and 1000 the key `A1B2||UAL123` has two rows whose
`last_seen` lies within the window of query time 1000 — and (ii) for the
degenerate key `"||"`, where two in-order sightings 10 s apart leave two
open rows. -/
theorem C2_counterexample :
    openCount "A1B2||UAL123" 1000
      (runLog [(sightA 0, 0), (sightA 5000, 0), (sightA 1000, 0)] []) = 2 ∧
    keyIsDegenerate "A1B2||UAL123" = false ∧
    openCount "||" 10 (runLog [(blankSighting, 0), (blankSighting, 10)] []) = 2 ∧
    keyIsDegenerate "||" = true :=
  ⟨by decide, by decide, by decide, by decide⟩

/-- **C2 amended**: for every non-degenerate key, when the observed times
of a run are non-decreasing, at most one stored row has `last_seen` within
the coalescing window of any query time at or after the last observation. -/
theorem C2_open_event_unique (calls : List (Sighting × Int)) (q : Int) (key : String)
    (hchain : List.Chain' (· ≤ ·) (calls.map obsTime))
    (hq : ∀ x ∈ calls.map obsTime, x ≤ q)
    (hkey : keyIsDegenerate key = false) :
    openCount key q (runLog calls []) ≤ 1 := by
  cases calls with
  | nil =>
    have : runLog [] ([] : List Event) = [] := rfl
    rw [this]
    exact Nat.le_of_eq rfl |>.trans (by rw [openCount]; exact Nat.zero_le 1)
  | cons c cs =>
    refine runLog_openCount (c :: cs) [] (obsTime c) ?_ ?_ q ?_ hq key hkey
    · intro k _
      exact Nat.zero_le 1
    · have hmap : (c :: cs).map obsTime = obsTime c :: cs.map obsTime := rfl
      rw [hmap]
      exact List.chain'_cons.2 ⟨le_refl _, by rw [hmap] at hchain; exact hchain⟩
    · exact hq (obsTime c) (List.mem_map_of_mem obsTime (List.mem_cons_self c cs))

/-- Witness for `C2_open_event_unique` at a concrete input. -/
theorem C2_open_event_unique_witness :
    (List.Chain' (· ≤ ·) ([(sightA 0, (0 : Int)), (sightA 600, 0)].map obsTime) ∧
      keyIsDegenerate "A1B2||UAL123" = false) ∧
    openCount "A1B2||UAL123" 600 (runLog [(sightA 0, 0), (sightA 600, 0)] []) ≤ 1 := by
  have hch : List.Chain' (· ≤ ·) ([(sightA 0, (0 : Int)), (sightA 600, 0)].map obsTime) := by
    have hm : [(sightA 0, (0 : Int)), (sightA 600, 0)].map obsTime = [0, 600] := rfl
    rw [hm]
    exact List.chain'_pair.2 (by norm_num)
  refine ⟨⟨hch, by decide⟩, ?_⟩
  exact C2_open_event_unique [(sightA 0, 0), (sightA 600, 0)] 600 "A1B2||UAL123"
    hch (by decide) (by decide)

/-- **C7 counterexample**: a sighting with a present but unparseable
`seen_at` and a usable identity makes `log_flight` raise out of
`datetime.fromisoformat` — it is not recovered by substituting the current
time. -/
theorem C7_counterexample :
    logFlightRaw c7raw "2026-01-01T00:00:00" [] =
      .error "ValueError: invalid isoformat string" ∧
    parseIso "not-a-timestamp" = none ∧
    c7raw.seen_at = some "not-a-timestamp" :=
  ⟨rfl, rfl, rfl⟩

/-- **C7 amended**: a missing (or empty) `seen_at` is replaced by the
current time and the call succeeds; an unparseable non-empty timestamp on
a sighting with a non-degenerate key propagates the parse error to the
caller; a degenerate-key sighting never parses and always succeeds. -/
theorem C7_timestamp_handling (r : RawSighting) (nowStr : String) (tbl : List EventS) :
    (∀ n : Int, parseIso nowStr = some n → (r.seen_at = none ∨ r.seen_at = some "") →
      ∃ tbl2, logFlightRaw r nowStr tbl = .ok tbl2) ∧
    (∀ s : String, r.seen_at = some s → s ≠ "" → parseIso s = none →
      keyIsDegenerate (buildEventKeyRaw r) = false →
      logFlightRaw r nowStr tbl = .error "ValueError: invalid isoformat string") ∧
    (keyIsDegenerate (buildEventKeyRaw r) = true →
      ∃ tbl2, logFlightRaw r nowStr tbl = .ok tbl2) := by
  refine ⟨?_, ?_, ?_⟩
  · intro n hn hempty
    unfold logFlightRaw
    have hseen : (match r.seen_at with
        | none => nowStr
        | some s => if s = "" then nowStr else s) = nowStr := by
      rcases hempty with h | h <;> rw [h]
      rfl
    rw [hseen]
    dsimp only
    cases hdg : keyIsDegenerate (buildEventKeyRaw r)
    · rw [if_neg (by simp : ¬(false = true)), hn]
      dsimp only
      cases hbm : bestMatchRaw (buildEventKeyRaw r)
          (formatIso (n - eventWindowSecs)) tbl with
      | none => exact ⟨_, rfl⟩
      | some p =>
        cases p with
        | mk i e => exact ⟨_, rfl⟩
    · exact ⟨_, rfl⟩
  · intro s hs hne hbad hdg
    simp only [logFlightRaw, hs, hdg, Bool.false_eq_true, if_false, if_neg hne, hbad]
  · intro hdg
    simp only [logFlightRaw, hdg, if_true]
    exact ⟨_, rfl⟩

/-- Witness for `C7_timestamp_handling` at a concrete input. -/
theorem C7_timestamp_handling_witness :
    (parseIso "2026-01-01T00:00:00" = some 1767225600 ∧ c7rawMissing.seen_at = none) ∧
    ∃ tbl2, logFlightRaw c7rawMissing "2026-01-01T00:00:00" [] = .ok tbl2 :=
  ⟨⟨by decide, rfl⟩,
    (C7_timestamp_handling c7rawMissing "2026-01-01T00:00:00" []).1 1767225600
      (by decide) (Or.inl rfl)⟩

/-- **C9 counterexample**: `get_flight_detail` reports `COUNT(*)` — the
number of coalesced event rows — not the sum of their `times_seen`.  Three
sightings of `N123` (two coalescing, one later) leave rows with
`times_seen` 2 and 1: the claimed total is 3, the query returns 2. -/
theorem C9_counterexample :
    (runLog [(sightReg 0, 0), (sightReg 10, 0), (sightReg 10000, 0)] []).map
      (fun e => e.times_seen) = [2, 1] ∧
    (getFlightDetail "N123" ""
      (runLog [(sightReg 0, 0), (sightReg 10, 0), (sightReg 10000, 0)] [])).map
        Detail.total_seen = some 2 ∧
    ((runLog [(sightReg 0, 0), (sightReg 10, 0), (sightReg 10000, 0)] []).map
      (fun e => e.times_seen)).sum = 3 ∧
    (2 : Nat) ≠ 3 :=
  ⟨by decide, by decide, by decide, by decide⟩

/-- **C9 amended**: for an identity with at least one stored row, the
detail query returns the matching row with the greatest id together with
`MIN(seen_at)`, `MAX(seen_at)` and the NUMBER of matching event rows
(`COUNT(*)`, not the sum of their `times_seen`). -/
theorem C9_detail_query (reg0 hex0 : String) (tbl : List Event) (reg hex : String)
    (hreg : reg = pyUpper (pyStrip reg0)) (hhex : hex = pyUpper (pyStrip hex0))
    (hne : ¬(reg = "" ∧ hex = ""))
    (e0 : Event) (hmem : e0 ∈ tbl) (hm0 : detailMatches reg hex e0 = true) :
    ∃ d : Detail, getFlightDetail reg0 hex0 tbl = some d ∧
      d.total_seen = (tbl.filter (detailMatches reg hex)).length ∧
      (∃ i : Nat, tbl[i]? = some d.row ∧ detailMatches reg hex d.row = true ∧
        ∀ j : Nat, i < j → ∀ bj, tbl[j]? = some bj → detailMatches reg hex bj = false) ∧
      (∃ e1 ∈ tbl, detailMatches reg hex e1 = true ∧ d.first_seen = e1.seen_at) ∧
      (∃ e2 ∈ tbl, detailMatches reg hex e2 = true ∧ d.last_seen = e2.seen_at) ∧
      (∀ e3 ∈ tbl, detailMatches reg hex e3 = true →
        d.first_seen ≤ e3.seen_at ∧ e3.seen_at ≤ d.last_seen) := by
  subst hreg
  subst hhex
  unfold getFlightDetail
  dsimp only
  rw [if_neg (by simpa only [Bool.and_eq_true, decide_eq_true_eq] using hne)]
  have hms : e0 ∈ tbl.filter (detailMatches (pyUpper (pyStrip reg0)) (pyUpper (pyStrip hex0))) :=
    List.mem_filter.2 ⟨hmem, hm0⟩
  have hnil : tbl.filter (detailMatches (pyUpper (pyStrip reg0)) (pyUpper (pyStrip hex0))) ≠ [] :=
    List.ne_nil_of_mem hms
  obtain ⟨lr, hlr⟩ := Option.isSome_iff_exists.1 (List.getLast?_isSome.2 hnil)
  rw [hlr]
  obtain ⟨hplr, i, hgeti, hafter⟩ := filter_getLast_spec _ tbl lr hlr
  cases hmap : (tbl.filter (detailMatches (pyUpper (pyStrip reg0)) (pyUpper (pyStrip hex0)))).map
      Event.seen_at with
  | nil => exact absurd (List.map_eq_nil_iff.1 hmap) hnil
  | cons t ts =>
    refine ⟨_, rfl, rfl, ⟨i, hgeti, hplr, hafter⟩, ?_, ?_, ?_⟩
    · have hmm := foldl_min_mem ts t
      rw [← hmap] at hmm
      obtain ⟨e1, he1, heq⟩ := List.mem_map.1 hmm
      obtain ⟨hm1, hp1⟩ := List.mem_filter.1 he1
      exact ⟨e1, hm1, hp1, heq.symm⟩
    · have hmm := foldl_max_mem ts t
      rw [← hmap] at hmm
      obtain ⟨e2, he2, heq⟩ := List.mem_map.1 hmm
      obtain ⟨hm2, hp2⟩ := List.mem_filter.1 he2
      exact ⟨e2, hm2, hp2, heq.symm⟩
    · intro e3 hm3 hp3
      have he3 : e3.seen_at ∈ t :: ts := by
        rw [← hmap]
        exact List.mem_map_of_mem Event.seen_at (List.mem_filter.2 ⟨hm3, hp3⟩)
      exact ⟨foldl_min_le ts t e3.seen_at he3, foldl_max_le ts t e3.seen_at he3⟩

/-- Witness for `C9_detail_query` at a concrete input. -/
theorem C9_detail_query_witness :
    ("N123" = pyUpper (pyStrip "N123") ∧ "" = pyUpper (pyStrip "") ∧
      ¬(("N123" : String) = "" ∧ ("" : String) = "") ∧
      newEvent (sightReg 0) 0 "|N123|" ∈ [newEvent (sightReg 0) 0 "|N123|"] ∧
      detailMatches "N123" "" (newEvent (sightReg 0) 0 "|N123|") = true) ∧
    ∃ d : Detail, getFlightDetail "N123" "" [newEvent (sightReg 0) 0 "|N123|"] = some d ∧
      d.total_seen =
        ([newEvent (sightReg 0) 0 "|N123|"].filter (detailMatches "N123" "")).length ∧
      (∃ i : Nat, [newEvent (sightReg 0) 0 "|N123|"][i]? = some d.row ∧
        detailMatches "N123" "" d.row = true ∧
        ∀ j : Nat, i < j → ∀ bj, [newEvent (sightReg 0) 0 "|N123|"][j]? = some bj →
          detailMatches "N123" "" bj = false) ∧
      (∃ e1 ∈ [newEvent (sightReg 0) 0 "|N123|"], detailMatches "N123" "" e1 = true ∧
        d.first_seen = e1.seen_at) ∧
      (∃ e2 ∈ [newEvent (sightReg 0) 0 "|N123|"], detailMatches "N123" "" e2 = true ∧
        d.last_seen = e2.seen_at) ∧
      (∀ e3 ∈ [newEvent (sightReg 0) 0 "|N123|"], detailMatches "N123" "" e3 = true →
        d.first_seen ≤ e3.seen_at ∧ e3.seen_at ≤ d.last_seen) :=
  ⟨⟨by decide, by decide, by decide, List.mem_singleton.2 rfl, by decide⟩,
    C9_detail_query "N123" "" [newEvent (sightReg 0) 0 "|N123|"] "N123" ""
      (by decide) (by decide) (by decide)
      (newEvent (sightReg 0) 0 "|N123|") (List.mem_singleton.2 rfl) (by decide)⟩

end FlightPi
